import Mathlib

/-!
Verification of the indexify coordinator state-access layer
(`src/state/mod.rs`), the stubbed next-generation state store
(`server-next/state_store/src/lib.rs`) and the Postgres metadata
writer (`src/metadata_storage/postgres.rs`).

The replicated state machine (the `store` module) is not part of the
provided sources; its table shapes are modelled from the spec (section 3):
maps are association lists, the FIFO queues `unprocessed_extraction_events`
and `unassigned_tasks` and the per-repository content list are ordered
lists in insertion order.  A Rust `unwrap` on a map lookup is modelled by
`Option`: `none` is the panic.
-/

namespace Indexify

/-- Content metadata as stored in the state machine (spec section 3):
identifier, owning repository, label map and creation time.  Labels are an
association list of byte-exact strings. -/
structure ContentMetadata where
  id : String
  repository : String
  metadata : List (String × String)
  created_at : Nat
deriving Repr, DecidableEq, Inhabited

/-- An extractor binding: a rule pairing a repository with an extractor,
guarded by a filter map over content labels. -/
structure ExtractorBinding where
  id : String
  repository : String
  name : String
  extractor : String
  filters : List (String × String)
deriving Repr, DecidableEq, Inhabited

/-- A unit of extraction work. -/
structure Task where
  id : String
  extractor : String
  repository : String
  content_id : String
deriving Repr, DecidableEq, Inhabited

/-- An extraction event queued for the scheduler loop. -/
structure ExtractionEvent where
  id : String
  repository : String
  payload : String
deriving Repr, DecidableEq, Inhabited

/-- Declared capabilities of an extractor. -/
structure ExtractorDescription where
  name : String
  description : String
deriving Repr, DecidableEq, Inhabited

/-- A registered executor worker. -/
structure ExecutorMetadata where
  id : String
  addr : String
  extractor_name : String
  last_seen : Nat
deriving Repr, DecidableEq, Inhabited

/-- A created index definition. -/
structure Index where
  name : String
  schema : String
deriving Repr, DecidableEq, Inhabited

/-- The `internal_api::Repository` view returned by repository listings. -/
structure Repository where
  name : String
  extractor_bindings : List ExtractorBinding
deriving Repr, DecidableEq, Inhabited

/-- Modelled from the spec: the in-memory state machine of the `store`
module (absent from the provided sources; spec section 3 gives the table
shapes).  Maps are association lists; `unprocessed_extraction_events`,
`unassigned_tasks` and each `content_repository_table` entry are ordered
lists (FIFO / insertion order per the spec's derived-table description). -/
structure StateMachine where
  repositories : List String
  extractors : List (String × ExtractorDescription)
  bindings_table : List (String × List ExtractorBinding)
  content_table : List (String × ContentMetadata)
  content_repository_table : List (String × List String)
  extraction_events : List (String × ExtractionEvent)
  unprocessed_extraction_events : List String
  tasks : List (String × Task)
  unassigned_tasks : List String
  task_assignments : List (String × List String)
  executors : List (String × ExecutorMetadata)
  extractor_executors_table : List (String × List String)
  repository_extractors : List (String × List Index)
  index_table : List (String × Index)
deriving Repr, Inhabited

/-- The Rust loop pattern `for id in queue { out.push(table.get(id).unwrap()) }`:
each lookup is unwrapped, so a missing key (`none`) aborts the whole
traversal, which models the panic. -/
def lookupEach {α : Type} (f : String → Option α) : List String → Option (List α)
  | [] => some []
  | id :: rest =>
    match f id with
    | none => none
    | some a =>
      match lookupEach f rest with
      | none => none
      | some as_ => some (a :: as_)

namespace App

/-- The inner filter loop of `App::filter_extractor_binding_for_content`
(`src/state/mod.rs` lines 218-227).  The loop body computes `is_mach` and,
when false, executes `continue` — which targets this inner loop itself, so
it merely advances to the next filter entry.  The loop therefore has no
observable effect; it is reproduced here exactly so the omission is
visible. -/
def filterCheckLoop (content_metadata : ContentMetadata) : List (String × String) → Unit
  | [] => ()
  | (name, value) :: rest =>
    let is_mach := ((content_metadata.metadata.lookup name).map (fun v => v == value)).getD false
    if !is_mach then
      filterCheckLoop content_metadata rest
    else
      filterCheckLoop content_metadata rest

/-- `App::filter_extractor_binding_for_content` (`src/state/mod.rs` lines
204-231): fetch the repository's bindings, run the (ineffective) inner
filter loop, and push every binding onto `matched_bindings`. -/
def filter_extractor_binding_for_content (st : StateMachine) (content_metadata : ContentMetadata) :
    List ExtractorBinding :=
  let bindings := (st.bindings_table.lookup content_metadata.repository).getD []
  bindings.foldl
    (fun matched_bindings binding =>
      let _u := filterCheckLoop content_metadata binding.filters
      matched_bindings ++ [binding])
    []

/-- `App::content_matching_binding` (`src/state/mod.rs` lines 233-266):
resolve the repository's content ids (each `content_table` lookup is
unwrapped), then keep the content items for which `is_empty || is_match`
holds, where `is_match` checks every entry of the binding's filter map
against the content's labels. -/
def content_matching_binding (st : StateMachine) (repository : String)
    (binding : ExtractorBinding) : Option (List ContentMetadata) :=
  match lookupEach (fun content_id => st.content_table.lookup content_id)
      ((st.content_repository_table.lookup repository).getD []) with
  | none => none
  | some content_list =>
    some (content_list.filter (fun content =>
      binding.filters.isEmpty ||
        binding.filters.all (fun p =>
          ((content.metadata.lookup p.1).map (fun v => v == p.2)).getD false)))

/-- `App::unassigned_tasks` (`src/state/mod.rs` lines 268-276): walk the
`unassigned_tasks` queue in order, unwrapping each `tasks` lookup. -/
def unassigned_tasks (st : StateMachine) : Option (List Task) :=
  lookupEach (fun task_id => st.tasks.lookup task_id) st.unassigned_tasks

/-- `App::tasks_for_executor` (`src/state/mod.rs` lines 479-492): map the
executor's assigned task ids through an unwrapped `tasks` lookup; an
executor with no assignment entry yields the empty list. -/
def tasks_for_executor (st : StateMachine) (executor_id : String) : Option (List Task) :=
  match st.task_assignments.lookup executor_id with
  | some task_ids => lookupEach (fun task_id => st.tasks.lookup task_id) task_ids
  | none => some []

/-- `App::unprocessed_extraction_events` (`src/state/mod.rs` lines
185-193): walk the unprocessed queue in order, unwrapping each
`extraction_events` lookup. -/
def unprocessed_extraction_events (st : StateMachine) : Option (List ExtractionEvent) :=
  lookupEach (fun event_id => st.extraction_events.lookup event_id)
    st.unprocessed_extraction_events

/-- `App::list_repositories` (`src/state/mod.rs` lines 370-386): one
`Repository` per name in the repository set, carrying that name's
`bindings_table` entry (empty when absent). -/
def list_repositories (st : StateMachine) : List Repository :=
  st.repositories.map (fun repository_name =>
    { name := repository_name
      extractor_bindings := (st.bindings_table.lookup repository_name).getD [] })

/-- `App::get_repository` (`src/state/mod.rs` lines 388-400): always
succeeds, synthesizing a `Repository` from the requested name and the
`bindings_table` entry (empty when absent). -/
def get_repository (st : StateMachine) (repository : String) : Except String Repository :=
  Except.ok
    { name := repository
      extractor_bindings := (st.bindings_table.lookup repository).getD [] }

/-- `App::extractor_with_name` (`src/state/mod.rs` lines 339-346). -/
def extractor_with_name (st : StateMachine) (extractor : String) :
    Except String ExtractorDescription :=
  match st.extractors.lookup extractor with
  | some e => Except.ok e
  | none => Except.error "extractor not found"

/-- `App::get_conent_metadata` (`src/state/mod.rs` lines 462-469). -/
def get_conent_metadata (st : StateMachine) (content_id : String) :
    Except String ContentMetadata :=
  match st.content_table.lookup content_id with
  | some c => Except.ok c
  | none => Except.error "content not found"

/-- `App::task_with_id` (`src/state/mod.rs` lines 494-498). -/
def task_with_id (st : StateMachine) (task_id : String) : Except String Task :=
  match st.tasks.lookup task_id with
  | some t => Except.ok t
  | none => Except.error "task not found"

/-- `App::get_index` (`src/state/mod.rs` lines 511-518). -/
def get_index (st : StateMachine) (id : String) : Except String Index :=
  match st.index_table.lookup id with
  | some i => Except.ok i
  | none => Except.error "index not found"

/-- A tokio join error (the `Err` of `JoinHandle::await`). -/
structure JoinError where
  msg : String
deriving Repr, DecidableEq, Inhabited

/-- A log line: `info!` or `error!`. -/
inductive LogLine where
  | info (msg : String)
  | err (msg : String)
deriving Repr, DecidableEq

/-- One iteration of the join loop in `App::stop`: the awaited result is
logged with `info!`, and when the join failed an additional `error!` line
is emitted; the loop never breaks out. -/
def stopStep (logs : List LogLine) (res : Except JoinError (Except String Unit)) :
    List LogLine :=
  let logs := logs ++ [LogLine.info ("task quit res: " ++ toString (repr res))]
  match res with
  | Except.error e => logs ++ [LogLine.err ("task quit with error: " ++ e.msg)]
  | Except.ok _ => logs

/-- `App::stop` (`src/state/mod.rs` lines 168-183), restricted to its
join-handle loop: each spawned handle resolves to either a join error or
the task's own `Result`.  The loop awaits every handle in order running
`stopStep`, and the function finally returns `Ok(())` regardless of the
join results.  The first component collects the emitted log lines. -/
def stop (join_results : List (Except JoinError (Except String Unit))) :
    List LogLine × Except String Unit :=
  (join_results.foldl stopStep [], Except.ok ())

/-- Recognizes the per-handle `info!("task quit res: ...")` line. -/
def isJoinInfoLine : LogLine → Bool
  | LogLine.info _ => true
  | LogLine.err _ => false

/-- A peer entry of the server configuration. -/
structure PeerConfig where
  node_id : Nat
  addr : String
deriving Repr, DecidableEq, Inhabited

/-- The server configuration fields `App::new` consumes. -/
structure ServerConfig where
  node_id : Nat
  peers : List PeerConfig
  raft_addr : String
  coordinator_addr : String
deriving Repr, DecidableEq, Inhabited

/-- The openraft configuration fields `App::new` sets explicitly; all other
fields keep the library's defaults (`..Default::default()`). -/
structure RaftConfig where
  heartbeat_interval : Nat
  election_timeout_min : Nat
  election_timeout_max : Nat
deriving Repr, DecidableEq, Inhabited

/-- The consensus configuration built at the top of `App::new`
(`src/state/mod.rs` lines 92-97); it does not depend on the server
configuration. -/
def new_raft_config (server_config : ServerConfig) : RaftConfig :=
  { heartbeat_interval := 500
    election_timeout_min := 1500
    election_timeout_max := 3000 }

end App

/-- The spec's filter-matching predicate (spec section 4.4, "Filter
semantics" / property P6): every `(k, v)` of the filter map must be present
in the content's label map with a byte-equal value; the empty filter
matches everything. -/
def specFilterMatches (filters : List (String × String)) (labels : List (String × String)) : Bool :=
  filters.all (fun p => labels.lookup p.1 == some p.2)

namespace ServerNext

/-- A namespace record of the `data_model` crate (only its existence
matters to the stubbed store). -/
structure Namespace where
  name : String
deriving Repr, DecidableEq, Inhabited

/-- A compute-graph record of the `data_model` crate. -/
structure ComputeGraph where
  name : String
deriving Repr, DecidableEq, Inhabited

/-- `IndexifyState` (`server-next/state_store/src/lib.rs` lines 11-14):
a handle on an opaque transactional database.  The database contents are
abstracted as a type parameter because none of the verified methods read
or write them. -/
structure IndexifyState (Db : Type) where
  db : Db
deriving Repr, DecidableEq, Inhabited

/-- `IndexifyState::create_namespace` (`lib.rs` lines 22-24): an empty
body that returns `Ok(())`.  `&self` is not `&mut self` and nothing is
written, so the state is returned unchanged. -/
def IndexifyState.create_namespace {Db : Type} (s : IndexifyState Db) (name : String) :
    Except String Unit × IndexifyState Db :=
  (Except.ok (), s)

/-- `IndexifyState::namespaces` (`lib.rs` lines 26-28): always the empty
list. -/
def IndexifyState.namespaces {Db : Type} (s : IndexifyState Db) :
    Except String (List Namespace) :=
  Except.ok []

/-- `IndexifyState::compute_graphs` (`lib.rs` lines 34-36): always the
empty list. -/
def IndexifyState.compute_graphs {Db : Type} (s : IndexifyState Db) (ns : String) :
    Except String (List ComputeGraph) :=
  Except.ok []

end ServerNext

namespace Postgres

/-- `ExtractedMetadata` as bound by `PostgresIndexManager::add_metadata`
(`src/metadata_storage/postgres.rs`).  The JSONB payload is kept opaque as
a string. -/
structure ExtractedMetadata where
  id : String
  content_id : String
  parent_content_id : String
  content_source : String
  metadata : String
  extractor_name : String
  extraction_policy : String
deriving Repr, DecidableEq, Inhabited

/-- One row of the per-namespace metadata table created by
`create_metadata_table` (`postgres.rs` lines 38-56); `id` is the primary
key.  The `namespace` column is spelled `nspace` because `namespace` is a
Lean keyword. -/
structure MetadataRow where
  id : String
  nspace : String
  extractor : String
  extractor_policy : String
  content_source : String
  index_name : String
  data : String
  content_id : String
  parent_content_id : String
  created_at : Nat
deriving Repr, DecidableEq, Inhabited

/-- `PostgresIndexManager::add_metadata` (`postgres.rs` lines 58-83) on
one table: `INSERT ... ON CONFLICT (id) DO UPDATE SET data = EXCLUDED.data`.
When no row carries the incoming id the full new row is appended; when one
does, only that row's `data` column is replaced by the incoming payload
and every other column of it keeps its stored value. -/
def add_metadata (table : List MetadataRow) (nspace : String)
    (metadata : ExtractedMetadata) (index_name : String) (now : Nat) :
    List MetadataRow :=
  let row : MetadataRow :=
    { id := metadata.id
      nspace := nspace
      extractor := metadata.extractor_name
      extractor_policy := metadata.extraction_policy
      content_source := metadata.content_source
      index_name := index_name
      data := metadata.metadata
      content_id := metadata.content_id
      parent_content_id := metadata.parent_content_id
      created_at := now }
  if table.any (fun r => r.id == row.id) then
    table.map (fun r => if r.id == row.id then { r with data := row.data } else r)
  else
    table ++ [row]

end Postgres

/-! ## Helper lemmas -/

/-- A successful `lookupEach` traversal: when every lookup succeeds, the
traversal succeeds and pairs each id with its looked-up value, in queue
order. -/
theorem lookupEach_isSome {α : Type} (f : String → Option α) :
    ∀ ids : List String, (∀ id ∈ ids, (f id).isSome) →
      ∃ res, lookupEach f ids = some res ∧
        List.Forall₂ (fun id a => f id = some a) ids res := by
  intro ids
  induction ids with
  | nil => exact fun _ => ⟨[], rfl, List.Forall₂.nil⟩
  | cons id rest ih =>
    intro h
    obtain ⟨a, ha⟩ := Option.isSome_iff_exists.mp (h id (List.mem_cons_self _ _))
    obtain ⟨res, hres, hall⟩ := ih (fun x hx => h x (List.mem_cons_of_mem _ hx))
    exact ⟨a :: res, by simp [lookupEach, ha, hres], List.Forall₂.cons ha hall⟩

/-- An association-list lookup hit is a member of the list. -/
theorem lookup_mem {β : Type} (k : String) (v : β) :
    ∀ l : List (String × β), l.lookup k = some v → (k, v) ∈ l := by
  intro l
  induction l with
  | nil => intro h; simp [List.lookup] at h
  | cons a rest ih =>
    intro h
    obtain ⟨k1, v1⟩ := a
    cases hb : k == k1 with
    | true =>
      simp only [List.lookup, hb] at h
      cases h
      exact (eq_of_beq hb) ▸ List.mem_cons_self _ _
    | false =>
      simp only [List.lookup, hb] at h
      exact List.mem_cons_of_mem _ (ih h)

/-- The per-label check of `content_matching_binding` coincides with the
spec's byte-exact label comparison. -/
theorem code_label_check_eq (labels : List (String × String)) (k v : String) :
    ((labels.lookup k).map (fun w => w == v)).getD false = (labels.lookup k == some v) := by
  cases labels.lookup k <;> rfl

/-- The `is_empty || is_match` guard of `content_matching_binding` is
exactly the spec's filter predicate: an empty filter matches everything,
and `all` over the empty filter is vacuously true as well. -/
theorem code_filter_pred_eq (filters labels : List (String × String)) :
    (filters.isEmpty ||
      filters.all (fun p => ((labels.lookup p.1).map (fun v => v == p.2)).getD false)) =
    specFilterMatches filters labels := by
  simp only [code_label_check_eq, specFilterMatches]
  cases filters with
  | nil => rfl
  | cons p ps => simp [List.isEmpty]

/-! ## Concrete states -/

/-- A binding guarded by the filter `lang = en`. -/
def bindingLangEn : ExtractorBinding :=
  { id := "b1", repository := "r1", name := "b1", extractor := "E1",
    filters := [("lang", "en")] }

/-- A content item of repository `r1` carrying no labels at all. -/
def contentNoLabels : ContentMetadata :=
  { id := "c1", repository := "r1", metadata := [], created_at := 0 }

/-- Repository `r1` holding `contentNoLabels` and the single binding
`bindingLangEn`. -/
def stateFilterBug : StateMachine :=
  { repositories := ["r1"]
    extractors := []
    bindings_table := [("r1", [bindingLangEn])]
    content_table := [("c1", contentNoLabels)]
    content_repository_table := [("r1", ["c1"])]
    extraction_events := []
    unprocessed_extraction_events := []
    tasks := []
    unassigned_tasks := []
    task_assignments := []
    executors := []
    extractor_executors_table := []
    repository_extractors := []
    index_table := [] }

/-! ## Claim theorems -/

/-- C1 (code bug): `filter_extractor_binding_for_content` is specified to
return only the bindings whose filter map matches the content's labels,
but its `continue` statement targets the inner filter loop — a no-op — so
the computed `is_mach` flag is never acted upon and every binding of the
repository is returned.  At a state whose single binding is guarded by
`lang = en` and whose content item has no labels, the code returns that
binding although the spec's filter predicate rejects it; on the very same
state `content_matching_binding`, which implements the predicate
correctly, selects no content for the binding. -/
theorem filter_extractor_binding_ignores_filters :
    App.filter_extractor_binding_for_content stateFilterBug contentNoLabels = [bindingLangEn] ∧
    specFilterMatches bindingLangEn.filters contentNoLabels.metadata = false ∧
    App.content_matching_binding stateFilterBug "r1" bindingLangEn = some [] :=
  ⟨by decide, by decide, by decide⟩

/-- C2: `content_matching_binding` resolves the repository's content list
(in insertion order) and keeps exactly the items satisfying every filter
entry of the binding, byte-equal; an empty filter map keeps every item. -/
theorem content_matching_binding_selects_matching (st : StateMachine)
    (repository : String) (binding : ExtractorBinding)
    (h : ∀ id ∈ (st.content_repository_table.lookup repository).getD [],
      (st.content_table.lookup id).isSome) :
    ∃ content_list,
      List.Forall₂ (fun id c => st.content_table.lookup id = some c)
        ((st.content_repository_table.lookup repository).getD []) content_list ∧
      App.content_matching_binding st repository binding =
        some (content_list.filter
          (fun c => specFilterMatches binding.filters c.metadata)) ∧
      (binding.filters = [] →
        App.content_matching_binding st repository binding = some content_list) := by
  obtain ⟨content_list, hsome, hall⟩ := lookupEach_isSome _ _ h
  have hmain : App.content_matching_binding st repository binding =
      some (content_list.filter (fun c => specFilterMatches binding.filters c.metadata)) := by
    unfold App.content_matching_binding
    rw [hsome]
    simp only [code_filter_pred_eq]
  refine ⟨content_list, hall, hmain, ?_⟩
  intro hempty
  rw [hmain]
  simp [hempty, specFilterMatches]

/-- C2 witness: at `stateFilterBug`, repository `r1` resolves to the single
unlabeled content item, which the `lang = en` filter rejects. -/
theorem content_matching_binding_selects_matching_witness :
    ∃ content_list,
      List.Forall₂
        (fun id c => stateFilterBug.content_table.lookup id = some c)
        ((stateFilterBug.content_repository_table.lookup "r1").getD []) content_list ∧
      App.content_matching_binding stateFilterBug "r1" bindingLangEn =
        some (content_list.filter
          (fun c => specFilterMatches bindingLangEn.filters c.metadata)) ∧
      (bindingLangEn.filters = [] →
        App.content_matching_binding stateFilterBug "r1" bindingLangEn = some content_list) :=
  content_matching_binding_selects_matching stateFilterBug "r1" bindingLangEn (by decide)

/-- An unassigned task. -/
def taskT1 : Task :=
  { id := "t1", extractor := "E1", repository := "r1", content_id := "c1" }

/-- A task assigned to executor `ex1`. -/
def taskT2 : Task :=
  { id := "t2", extractor := "E1", repository := "r1", content_id := "c1" }

/-- A queued extraction event. -/
def eventE1 : ExtractionEvent :=
  { id := "e1", repository := "r1", payload := "new-content" }

/-- A populated state: one unassigned task, one task assigned to `ex1`,
and one unprocessed extraction event, all resolvable in their tables. -/
def stateWithWork : StateMachine :=
  { repositories := ["r1"]
    extractors := []
    bindings_table := []
    content_table := [("c1", contentNoLabels)]
    content_repository_table := [("r1", ["c1"])]
    extraction_events := [("e1", eventE1)]
    unprocessed_extraction_events := ["e1"]
    tasks := [("t1", taskT1), ("t2", taskT2)]
    unassigned_tasks := ["t1"]
    task_assignments := [("ex1", ["t2"])]
    executors := []
    extractor_executors_table := []
    repository_extractors := []
    index_table := [] }

/-- C3: under invariants I1 (every queued unassigned task id resolves in
the task table) and I2 (every assigned task id of every executor entry
resolves), `unassigned_tasks` returns one task per queued id in queue
order, `tasks_for_executor` returns one task per assigned id of the
executor in assignment order, and neither internal `unwrap` fails (the
result is `some`, never the modelled panic `none`). -/
theorem task_accessors_total_under_invariants (st : StateMachine)
    (hI1 : ∀ id ∈ st.unassigned_tasks, (st.tasks.lookup id).isSome)
    (hI2 : ∀ entry ∈ st.task_assignments, ∀ id ∈ entry.2, (st.tasks.lookup id).isSome) :
    (∃ ts, App.unassigned_tasks st = some ts ∧
      List.Forall₂ (fun id t => st.tasks.lookup id = some t) st.unassigned_tasks ts) ∧
    (∀ e, ∃ ts, App.tasks_for_executor st e = some ts ∧
      List.Forall₂ (fun id t => st.tasks.lookup id = some t)
        ((st.task_assignments.lookup e).getD []) ts) := by
  constructor
  · obtain ⟨ts, hsome, hall⟩ := lookupEach_isSome _ _ hI1
    exact ⟨ts, hsome, hall⟩
  · intro e
    cases hlk : st.task_assignments.lookup e with
    | none =>
      refine ⟨[], ?_, ?_⟩
      · simp [App.tasks_for_executor, hlk]
      · simp [hlk]
    | some task_ids =>
      obtain ⟨ts, hsome, hall⟩ :=
        lookupEach_isSome (fun task_id => st.tasks.lookup task_id) task_ids
          (hI2 (e, task_ids) (lookup_mem e task_ids _ hlk))
      refine ⟨ts, ?_, ?_⟩
      · simp [App.tasks_for_executor, hlk, hsome]
      · simpa [hlk] using hall

/-- C3 witness: at `stateWithWork` both accessors succeed, returning the
queued task `t1` and executor `ex1`'s task `t2`. -/
theorem task_accessors_total_witness :
    (∃ ts, App.unassigned_tasks stateWithWork = some ts ∧
      List.Forall₂ (fun id t => stateWithWork.tasks.lookup id = some t)
        stateWithWork.unassigned_tasks ts) ∧
    (∀ e, ∃ ts, App.tasks_for_executor stateWithWork e = some ts ∧
      List.Forall₂ (fun id t => stateWithWork.tasks.lookup id = some t)
        ((stateWithWork.task_assignments.lookup e).getD []) ts) :=
  task_accessors_total_under_invariants stateWithWork (by decide) (by decide)

/-- C4: under invariant I3 (every queued unprocessed event id resolves in
the extraction-event table), `unprocessed_extraction_events` returns one
event per queued id in the queue's FIFO order and its internal `unwrap`
never fails. -/
theorem unprocessed_events_total_under_invariant (st : StateMachine)
    (hI3 : ∀ id ∈ st.unprocessed_extraction_events,
      (st.extraction_events.lookup id).isSome) :
    ∃ evs, App.unprocessed_extraction_events st = some evs ∧
      List.Forall₂ (fun id ev => st.extraction_events.lookup id = some ev)
        st.unprocessed_extraction_events evs := by
  obtain ⟨evs, hsome, hall⟩ := lookupEach_isSome _ _ hI3
  exact ⟨evs, hsome, hall⟩

/-- C4 witness: at `stateWithWork` the queued event `e1` is returned. -/
theorem unprocessed_events_total_witness :
    ∃ evs, App.unprocessed_extraction_events stateWithWork = some evs ∧
      List.Forall₂
        (fun id ev => stateWithWork.extraction_events.lookup id = some ev)
        stateWithWork.unprocessed_extraction_events evs :=
  unprocessed_events_total_under_invariant stateWithWork (by decide)

/-- A state whose repository set is exactly `r1`, with no bindings
recorded for it. -/
def stateRepoOnly : StateMachine :=
  { repositories := ["r1"]
    extractors := []
    bindings_table := []
    content_table := []
    content_repository_table := []
    extraction_events := []
    unprocessed_extraction_events := []
    tasks := []
    unassigned_tasks := []
    task_assignments := []
    executors := []
    extractor_executors_table := []
    repository_extractors := []
    index_table := [] }

/-- C5: on the state holding exactly repository `r1` with no recorded
bindings, `list_repositories` returns the single entry
`{name := r1, extractor_bindings := []}`; in general it returns one entry
per repository name, and an entry belongs to the listing exactly when its
name is a registered repository and its bindings are that name's
`bindings_table` entry (empty when absent).  The whole listing is computed
from the single state value passed in (one read snapshot). -/
theorem list_repositories_one_entry_per_repository :
    App.list_repositories stateRepoOnly = [{ name := "r1", extractor_bindings := [] }] ∧
    (∀ st : StateMachine, (App.list_repositories st).length = st.repositories.length) ∧
    (∀ (st : StateMachine) (r : Repository),
      r ∈ App.list_repositories st ↔
        r.name ∈ st.repositories ∧
        r.extractor_bindings = (st.bindings_table.lookup r.name).getD []) := by
  refine ⟨by decide, ?_, ?_⟩
  · intro st
    simp [App.list_repositories]
  · intro st r
    constructor
    · intro hr
      obtain ⟨nm, hnm, heq⟩ := List.mem_map.mp hr
      cases heq
      exact ⟨hnm, rfl⟩
    · rintro ⟨hname, hbind⟩
      refine List.mem_map.mpr ⟨r.name, hname, ?_⟩
      cases r
      simp_all [App.list_repositories]

/-- C6: `App::stop` awaits every spawned join handle — one `info!` line is
emitted per handle, whatever mix of errors and successes the joins
produce — and returns `Ok(())` for every list of join results; a failed
join never interrupts the loop or changes the return value. -/
theorem stop_awaits_all_and_returns_ok
    (join_results : List (Except App.JoinError (Except String Unit))) :
    (App.stop join_results).2 = Except.ok () ∧
    List.countP App.isJoinInfoLine (App.stop join_results).1 = join_results.length := by
  have key : ∀ (l : List (Except App.JoinError (Except String Unit))) (acc : List App.LogLine),
      List.countP App.isJoinInfoLine (l.foldl App.stopStep acc) =
        List.countP App.isJoinInfoLine acc + l.length := by
    intro l
    induction l with
    | nil => intro acc; simp
    | cons r rest ih =>
      intro acc
      rw [List.foldl_cons, ih]
      cases r <;>
        simp [App.stopStep, App.isJoinInfoLine, List.countP_append, List.countP_cons] <;>
        omega
  exact ⟨rfl, by simpa using key join_results []⟩

/-- C7: the consensus configuration built by `App::new` sets
`heartbeat_interval` to 500 ms, `election_timeout_min` to 1500 ms and
`election_timeout_max` to 3000 ms, independently of the server
configuration. -/
theorem new_raft_config_timings (server_config : App.ServerConfig) :
    (App.new_raft_config server_config).heartbeat_interval = 500 ∧
    (App.new_raft_config server_config).election_timeout_min = 1500 ∧
    (App.new_raft_config server_config).election_timeout_max = 3000 :=
  ⟨rfl, rfl, rfl⟩

/-- C8: `IndexifyState::create_namespace` returns `Ok(())` for every state
and name and leaves the state untouched, while `namespaces` and
`compute_graphs` always return the empty list — so no created namespace is
ever observable through `namespaces`. -/
theorem create_namespace_is_noop {Db : Type} (s : ServerNext.IndexifyState Db)
    (name ns : String) :
    s.create_namespace name = (Except.ok (), s) ∧
    s.namespaces = Except.ok ([] : List ServerNext.Namespace) ∧
    s.compute_graphs ns = Except.ok ([] : List ServerNext.ComputeGraph) :=
  ⟨rfl, rfl, rfl⟩

/-- C9: `get_repository` succeeds for every name — including names never
created — returning a `Repository` with that name and the recorded
bindings (empty when absent); by contrast `extractor_with_name`,
`get_conent_metadata`, `task_with_id` and `get_index` succeed exactly when
the requested key is present in their table. -/
theorem get_repository_never_not_found (st : StateMachine) (name : String) :
    App.get_repository st name =
      Except.ok
        { name := name
          extractor_bindings := (st.bindings_table.lookup name).getD [] } ∧
    (App.extractor_with_name st name).isOk = (st.extractors.lookup name).isSome ∧
    (App.get_conent_metadata st name).isOk = (st.content_table.lookup name).isSome ∧
    (App.task_with_id st name).isOk = (st.tasks.lookup name).isSome ∧
    (App.get_index st name).isOk = (st.index_table.lookup name).isSome := by
  refine ⟨rfl, ?_, ?_, ?_, ?_⟩
  · cases h : st.extractors.lookup name <;> simp [App.extractor_with_name, h, Except.isOk, Except.toBool]
  · cases h : st.content_table.lookup name <;> simp [App.get_conent_metadata, h, Except.isOk, Except.toBool]
  · cases h : st.tasks.lookup name <;> simp [App.task_with_id, h, Except.isOk, Except.toBool]
  · cases h : st.index_table.lookup name <;> simp [App.get_index, h, Except.isOk, Except.toBool]

/-- An existing metadata row, distinct in every column from what an upsert
of `mdNew` would write. -/
def rowOld : Postgres.MetadataRow :=
  { id := "m1"
    nspace := "ns-old"
    extractor := "ex-old"
    extractor_policy := "pol-old"
    content_source := "src-old"
    index_name := "idx-old"
    data := "\x7bold\x7d"
    content_id := "c-old"
    parent_content_id := "p-old"
    created_at := 1 }

/-- A row with a different primary key, untouched by the upsert. -/
def rowOther : Postgres.MetadataRow :=
  { id := "m2"
    nspace := "ns-old"
    extractor := "ex-old"
    extractor_policy := "pol-old"
    content_source := "src-old"
    index_name := "idx-old"
    data := "\x7bother\x7d"
    content_id := "c-other"
    parent_content_id := "p-other"
    created_at := 2 }

/-- Incoming metadata whose id collides with `rowOld`. -/
def mdNew : Postgres.ExtractedMetadata :=
  { id := "m1"
    content_id := "c-new"
    parent_content_id := "p-new"
    content_source := "src-new"
    metadata := "\x7bnew\x7d"
    extractor_name := "ex-new"
    extraction_policy := "pol-new" }

/-- C10: when `add_metadata` hits an existing primary key, the
`ON CONFLICT (id) DO UPDATE SET data = EXCLUDED.data` clause overwrites
only the `data` column: every conflicting row keeps its stored namespace,
extractor, extractor_policy, content_source, index_name, content_id,
parent_content_id and created_at columns (captured by the
`{ r with data := ... }` update), rows with other ids survive unchanged,
and no row is added or removed. -/
theorem add_metadata_overwrites_only_data (table : List Postgres.MetadataRow)
    (nspace index_name : String) (metadata : Postgres.ExtractedMetadata) (now : Nat)
    (hconflict : table.any (fun r => r.id == metadata.id)) :
    (Postgres.add_metadata table nspace metadata index_name now).length = table.length ∧
    ∀ r ∈ table,
      (r.id = metadata.id →
        { r with data := metadata.metadata } ∈
          Postgres.add_metadata table nspace metadata index_name now) ∧
      (r.id ≠ metadata.id →
        r ∈ Postgres.add_metadata table nspace metadata index_name now) := by
  unfold Postgres.add_metadata
  rw [if_pos hconflict]
  refine ⟨List.length_map _ _, ?_⟩
  intro r hr
  constructor
  · intro hid
    have := List.mem_map_of_mem
      (fun r => if r.id == metadata.id then { r with data := metadata.metadata } else r) hr
    simpa [hid] using this
  · intro hid
    have := List.mem_map_of_mem
      (fun r => if r.id == metadata.id then { r with data := metadata.metadata } else r) hr
    simpa [hid] using this

/-- C10 witness: upserting `mdNew` into a table holding `rowOld` (same id)
and `rowOther` keeps both rows, rewrites only `rowOld`'s data column, and
leaves `rowOther` untouched. -/
theorem add_metadata_overwrites_only_data_witness :
    (Postgres.add_metadata [rowOld, rowOther] "ns-new" mdNew "idx-new" 9).length =
      [rowOld, rowOther].length ∧
    ∀ r ∈ [rowOld, rowOther],
      (r.id = mdNew.id →
        { r with data := mdNew.metadata } ∈
          Postgres.add_metadata [rowOld, rowOther] "ns-new" mdNew "idx-new" 9) ∧
      (r.id ≠ mdNew.id →
        r ∈ Postgres.add_metadata [rowOld, rowOther] "ns-new" mdNew "idx-new" 9) :=
  add_metadata_overwrites_only_data [rowOld, rowOther] "ns-new" "idx-new" mdNew 9 (by decide)

end Indexify
